import Mathlib

/-!
Verification of the `pyOpenFEMA` client (`pyOpenFEMA/OpenFEMA.py`).

The development shallowly embeds the pieces of `OpenFEMA.py` that the checked
properties are about:

* the metadata document (`servers`, `paths` keys, `components.schemas`) and
  the construction-time resolution of the production server URL and the
  catalog-dataset path key (`OpenFEMA.__init__`);
* the catalog-of-datasets dataframe and the operations over it
  (`_validate_metadata_dataset_list`, `_check_if_dataset_exists`,
  `list_datasets`, `dataset_info`);
* schema resolution (`_get_dataset_dtype`);
* the file-format selection and reader dispatch fragments of `read_dataset`;
* type coercion (`_set_dataset_dtype`).

A pandas dataframe is modelled column-orientedly as an association list from
column name to a list of cells.  The pandas/engine behaviour that the code
relies on (dict-based `astype` raising `KeyError` for a key that is not a
column, nullable `Int*` dtypes accepting missing values where `int*` raise,
`astype('string')` keeping the literal text, `pd.to_datetime` rejecting
malformed literals) is modelled at the engine's interface boundary, which the
repository treats as an external collaborator.  Warnings are modelled as an
extra component of the result (`none` = no warning).
-/

/-- The kinds of exceptions the modelled code can raise.  `indexError`,
`keyError` and `typeError` stand for Python's low-level `IndexError`,
`KeyError` and `TypeError`; `valueError` and `notImplementedError` carry a
short tag for the message the source raises. -/
inductive PyError where
  | indexError : PyError
  | keyError : PyError
  | typeError : PyError
  | valueError : String → PyError
  | notImplementedError : String → PyError
  deriving DecidableEq, Repr

/-- One cell of a dataframe: missing value, string, integer, or a parsed
date/datetime value remembering its literal text. -/
inductive Cell where
  | na : Cell
  | str : String → Cell
  | int : Int → Cell
  | date : String → Cell
  deriving DecidableEq, Repr

/-- A dataframe, column-oriented: association list of column name to cells. -/
abbrev Catalog := List (String × List Cell)

/-- Does the character list `s` start with the character list `p`? -/
def startsWithChars : List Char → List Char → Bool
  | _, [] => true
  | [], _ :: _ => false
  | c :: s, p :: ps => c == p && startsWithChars s ps

/-- Does the character list `s` have `p` as a contiguous sub-sequence? -/
def hasSubChars (s p : List Char) : Bool :=
  startsWithChars s p ||
    (match s with
     | [] => false
     | _ :: t => hasSubChars t p)

/-- Case-sensitive substring test, modelling `pat in s` / `Series.str.contains(pat)`
for a plain (regex-metacharacter-free) pattern. -/
def strContains (s pat : String) : Bool :=
  hasSubChars s.toList pat.toList

/-- Python's `str.capitalize`: first character upper-cased, the rest
lower-cased (so `"int32".capitalize() = "Int32"`). -/
def pyCapitalize (s : String) : String :=
  match s.toList with
  | [] => ""
  | c :: cs => String.mk (c.toUpper :: cs.map Char.toLower)

/-- Monadic map over `Except`, written as plain recursion so that proofs can
proceed by structural induction. -/
def mapExcept (f : α → Except PyError β) : List α → Except PyError (List β)
  | [] => .ok []
  | a :: as =>
    match f a with
    | .error e => .error e
    | .ok b =>
      match mapExcept f as with
      | .error e => .error e
      | .ok bs => .ok (b :: bs)

/-- One entry of `servers` in the OpenAPI metadata document. -/
structure Server where
  url : String
  description : String
  deriving DecidableEq, Repr

/-- One property of a schema entry; the code reads its `format` field. -/
structure PropSpec where
  format : String
  deriving DecidableEq, Repr

/-- One entry of `components.schemas`: an ordered mapping of property
(column) name to its metadata. -/
structure SchemaEntry where
  properties : List (String × PropSpec)
  deriving DecidableEq, Repr

/-- The OpenAPI metadata document, with the parts the code reads: the server
list, the keys of `paths`, and `components.schemas` as an ordered mapping. -/
structure Metadata where
  servers : List Server
  pathsKeys : List String
  schemas : List (String × SchemaEntry)
  deriving DecidableEq, Repr

/-- The state of a constructed `OpenFEMA` object. -/
structure Client where
  url : String
  schemas : List (String × SchemaEntry)
  catalog : Catalog
  catalogKey : String
  deriving DecidableEq, Repr

/-- The urls of the servers whose description is exactly `"Production"`,
in order: the list comprehension of `OpenFEMA.__init__` (line 64). -/
def production_urls (servers : List Server) : List String :=
  (servers.filter (fun s => s.description = "Production")).map Server.url

/-- `[... for server ...][0]` of `OpenFEMA.__init__`: taking element `0` of an
empty Python list raises `IndexError`; otherwise the first element is used. -/
def extract_production_url (servers : List Server) : Except PyError String :=
  match production_urls servers with
  | [] => .error .indexError
  | u :: _ => .ok u

/-- The `paths`-key resolution of `OpenFEMA.__init__` (lines 69-78): keep the
keys containing `"DataSets"`; unless exactly one remains, raise
`NotImplementedError`. -/
def find_metadata_dataset_key (pathsKeys : List String) : Except PyError String :=
  match pathsKeys.filter (fun k => strContains k "DataSets") with
  | [k] => .ok k
  | _ => .error (.notImplementedError "metadata dataset key")

/-- `OpenFEMA.__init__` after the metadata document has been parsed: resolve
the production server url, resolve the catalog-dataset path key, and record
the (externally fetched) catalog dataframe. -/
def init_client (meta : Metadata) (catalog : Catalog) : Except PyError Client := do
  let url ← extract_production_url meta.servers
  let key ← find_metadata_dataset_key meta.pathsKeys
  .ok { url := url, schemas := meta.schemas, catalog := catalog, catalogKey := key }

/-- `OpenFEMA._validate_metadata_dataset_list`: succeed iff some column name
of the catalog dataframe contains the substring `"name"`; otherwise raise
`NotImplementedError`. -/
def validate_metadata_dataset_list (df : Catalog) : Except PyError Unit :=
  if (df.map Prod.fst).any (fun c => strContains c "name") then .ok ()
  else .error (.notImplementedError "dataset name column")

/-- `df[c]` for a dataframe: the column named exactly `c`, or `KeyError`. -/
def getCol (df : Catalog) (c : String) : Except PyError (List Cell) :=
  match df.lookup c with
  | some col => .ok col
  | none => .error .keyError

/-- A cell used where the code needs a string value (the entries of the
`name` column).  Non-string cells are modelled as an engine-level type
error. -/
def cellAsString : Cell → Except PyError String
  | .str s => .ok s
  | _ => .error .typeError

/-- `Series.drop_duplicates` keeping first occurrences, with an accumulator
of the names already seen. -/
def dedupAux (seen : List String) : List String → List String
  | [] => []
  | x :: xs => if x ∈ seen then dedupAux seen xs else x :: dedupAux (x :: seen) xs

/-- `Series.drop_duplicates`: keep the first occurrence of each name. -/
def dedupFirst (l : List String) : List String :=
  dedupAux [] l

/-- `Series.sort_values()`: lexicographically ascending. -/
def sortStrings (l : List String) : List String :=
  List.insertionSort (fun a b => a ≤ b) l

/-- `OpenFEMA.list_datasets`.  Returns the dataset list together with the
warning (the list of names it reports), `none` when no warning fires. -/
def list_datasets (df : Catalog) : Except PyError (List String × Option (List String)) := do
  let _ ← validate_metadata_dataset_list df
  let col ← getCol df "name"
  let names ← mapExcept cellAsString col
  let dataset_names := dedupFirst names
  let matching := dataset_names.filter (fun s => strContains s "DataSet")
  if matching.length > 3 then
    .ok (sortStrings dataset_names, some matching)
  else
    .ok (sortStrings (dataset_names.filter (fun s => !(strContains s "DataSet"))), none)

/-- `OpenFEMA._check_if_dataset_exists`: after validation, the dataset must
occur exactly once in `list_datasets()`; otherwise `ValueError`. -/
def check_if_dataset_exists (df : Catalog) (dataset : String) : Except PyError Unit := do
  let _ ← validate_metadata_dataset_list df
  let r ← list_datasets df
  if r.1.count dataset ≠ 1 then .error (.valueError "dataset not found")
  else .ok ()

/-- The schema key `f"v{version}-{dataset}"` of `_get_dataset_dtype`. -/
def schema_key (dataset : String) (version : Int) : String :=
  "v" ++ toString version ++ "-" ++ dataset

/-- The list comprehension of `_get_dataset_dtype` (line 301): the schema
names exactly equal to the key. -/
def schema_matches (schemas : List (String × SchemaEntry)) (key : String) : List String :=
  (schemas.map Prod.fst).filter (fun n => key = n)

/-- `OpenFEMA._get_dataset_dtype`: unless exactly one schema name equals
`v{version}-{dataset}`, raise `NotImplementedError`; otherwise return the
ordered mapping of property name to its declared `format` string. -/
def get_dataset_dtype (schemas : List (String × SchemaEntry)) (dataset : String)
    (version : Int) : Except PyError (List (String × String)) :=
  let key := schema_key dataset version
  match schema_matches schemas key with
  | [_] =>
    match schemas.lookup key with
    | some entry => .ok (entry.properties.map (fun kv => (kv.1, kv.2.format)))
    | none => .error .keyError
  | _ => .error (.notImplementedError "schema resolution")

/-- The index of the first row whose `name` cell equals the requested
dataset: the row that `df[dataset_names == dataset].to_dict(orient='records')[0]`
selects. -/
def firstMatchIdx (cells : List Cell) (dataset : String) : Option Nat :=
  match cells with
  | [] => none
  | c :: rest =>
    if c = Cell.str dataset then some 0
    else (firstMatchIdx rest dataset).map (· + 1)

/-- `df[mask].to_dict(orient='records')[0]` specialised to a single row
index: the record mapping each column name to its cell at row `i`. -/
def extractRow (df : Catalog) (i : Nat) : List (String × Cell) :=
  df.map (fun kv => (kv.1, kv.2.getD i Cell.na))

/-- `OpenFEMA.dataset_info`: validate, check existence, select the first
catalog row matching the name, read its `version` field, and attach the
resolved column mapping.  Returns the record together with the `columns`
mapping the code adds to it.  The catalog's `version` values are integral
(they come from a parquet int column); a non-integral cell is modelled as an
engine-level type error at the `f"v{version}-"` boundary. -/
def dataset_info (cl : Client) (dataset : String) :
    Except PyError (List (String × Cell) × List (String × String)) := do
  let _ ← validate_metadata_dataset_list cl.catalog
  let _ ← check_if_dataset_exists cl.catalog dataset
  let nameCol ← getCol cl.catalog "name"
  match firstMatchIdx nameCol dataset with
  | none => .error .indexError
  | some i =>
    let row := extractRow cl.catalog i
    match row.lookup "version" with
    | none => .error .keyError
    | some (Cell.int v) =>
      match get_dataset_dtype cl.schemas dataset v with
      | .error e => .error e
      | .ok columns => .ok (row, columns)
    | some _ => .error .typeError

/-- The fixed format preference order of `read_dataset` (lines 244-252). -/
def formatPriority : List String := ["geojson", "parquet", "csv", "jsona"]

/-- The file-format selection step of `OpenFEMA.read_dataset` (lines
244-252): an explicit format is used verbatim; otherwise the if/elif chain
picks the first available of geojson, parquet, csv, jsona, and selects
nothing when none of the four is available. -/
def select_file_format (explicit : Option String) (file_formats : List String) :
    Option String :=
  match explicit with
  | some f => some f
  | none =>
    if file_formats.contains "geojson" then some "geojson"
    else if file_formats.contains "parquet" then some "parquet"
    else if file_formats.contains "csv" then some "csv"
    else if file_formats.contains "jsona" then some "jsona"
    else none

/-- Which reader `read_dataset` dispatches to. -/
inductive ReaderKind where
  | geo : ReaderKind
  | parquetReader : ReaderKind
  | csvReader : ReaderKind
  | jsonaReader : ReaderKind
  deriving DecidableEq, Repr

/-- The reader dispatch of `OpenFEMA.read_dataset` (lines 259-268): the
if/elif chain over the resolved format, raising `ValueError` (the
"file format ... is not supported" message) in the final else branch. -/
def read_by_format (file_format : Option String) : Except PyError ReaderKind :=
  if file_format = some "geojson" then .ok .geo
  else if file_format = some "parquet" then .ok .parquetReader
  else if file_format = some "csv" then .ok .csvReader
  else if file_format = some "jsona" then .ok .jsonaReader
  else .error (.valueError "unsupported file format")

/-- The restriction of the column-dtype mapping to the requested columns
(`read_dataset` lines 272-273).  Python's `if columns:` is false for both
`None` and the empty list. -/
def restrict_column_dtypes (column_dtypes : List (String × String))
    (columns : Option (List String)) : List (String × String) :=
  match columns with
  | none => column_dtypes
  | some cs =>
    if cs.isEmpty then column_dtypes
    else column_dtypes.filter (fun kv => cs.contains kv.1)

/-- The nullable ("capital-I") pandas integer dtypes. -/
def nullableIntDtypes : List String := ["Int8", "Int16", "Int32", "Int64"]

/-- The plain numpy integer dtypes, which reject missing values. -/
def plainIntDtypes : List String := ["int8", "int16", "int32", "int64"]

/-- Engine-boundary model of the strict date parser underlying
`pd.to_datetime`: accepts non-empty literals of digits and date/time
punctuation, rejects anything else. -/
def dateParseOk (s : String) : Bool :=
  !s.isEmpty && s.toList.all (fun c => c.isDigit || c == '-' || c == ':' || c == 'T')

/-- Engine-boundary model of casting one cell with `Series.astype(dtype)`:
`"string"` keeps missing values and renders values as text; nullable `Int*`
dtypes keep missing values; plain `int*` dtypes raise on a missing value;
an unrecognised dtype string raises `TypeError`. -/
def castCell (dtype : String) (c : Cell) : Except PyError Cell :=
  if dtype = "string" then
    match c with
    | .na => .ok .na
    | .str s => .ok (.str s)
    | .int n => .ok (.str (toString n))
    | .date s => .ok (.str s)
  else if nullableIntDtypes.contains dtype then
    match c with
    | .na => .ok .na
    | .int n => .ok (.int n)
    | .str s =>
      match s.toInt? with
      | some n => .ok (.int n)
      | none => .error .typeError
    | .date _ => .error .typeError
  else if plainIntDtypes.contains dtype then
    match c with
    | .na => .error .typeError
    | .int n => .ok (.int n)
    | .str s =>
      match s.toInt? with
      | some n => .ok (.int n)
      | none => .error .typeError
    | .date _ => .error .typeError
  else .error .typeError

/-- Cast every cell of one column to `dtype`. -/
def castColumn (dtype : String) (col : List Cell) : Except PyError (List Cell) :=
  mapExcept (castCell dtype) col

/-- The casting part of `DataFrame.astype(mapping)`: columns named in the
mapping are cast, the others pass through unchanged. -/
def castColumns (mapping : List (String × String)) : Catalog → Except PyError Catalog
  | [] => .ok []
  | (n, col) :: rest =>
    match (match mapping.lookup n with
           | some d => castColumn d col
           | none => .ok col) with
    | .error e => .error e
    | .ok col' =>
      match castColumns mapping rest with
      | .error e => .error e
      | .ok rest' => .ok ((n, col') :: rest')

/-- Is `c` a column name of the dataframe? -/
def hasColumn (df : Catalog) (c : String) : Bool :=
  (df.map Prod.fst).contains c

/-- `DataFrame.astype(mapping)`: pandas first requires every mapping key to
be a column name (otherwise `KeyError`), then casts. -/
def astype (df : Catalog) (mapping : List (String × String)) : Except PyError Catalog :=
  if mapping.all (fun kv => hasColumn df kv.1) then castColumns mapping df
  else .error .keyError

/-- Engine-boundary model of `pd.to_datetime` applied to one cell: missing
values pass through, parseable literals become date values, malformed
literals raise. -/
def toDatetimeCell : Cell → Except PyError Cell
  | .na => .ok .na
  | .str s => if dateParseOk s then .ok (.date s) else .error .typeError
  | .date s => .ok (.date s)
  | .int _ => .error .typeError

/-- `df[c] = pd.to_datetime(df[c])`: reading a missing column raises
`KeyError`; otherwise the column is replaced in place. -/
def to_datetime_col : Catalog → String → Except PyError Catalog
  | [], _ => .error .keyError
  | (n, col) :: rest, c =>
    if n = c then
      match mapExcept toDatetimeCell col with
      | .error e => .error e
      | .ok col' => .ok ((n, col') :: rest)
    else
      match to_datetime_col rest c with
      | .error e => .error e
      | .ok rest' => .ok ((n, col) :: rest')

/-- The `for datetime_column in datetime_columns` loop of
`_set_dataset_dtype`. -/
def apply_datetimes (df : Catalog) : List String → Except PyError Catalog
  | [] => .ok df
  | c :: cs =>
    match to_datetime_col df c with
    | .error e => .error e
    | .ok df' => apply_datetimes df' cs

/-- The `non_datetime_columns` mapping the `parse_dates` branch of
`_set_dataset_dtype` builds: date columns dropped, `int`-containing dtypes
capitalised to their nullable form, other dtypes kept. -/
def nonDateDtypes (column_dtypes : List (String × String)) : List (String × String) :=
  column_dtypes.filterMap (fun kv =>
    if strContains kv.2 "date" then none
    else if strContains kv.2 "int" then some (kv.1, pyCapitalize kv.2)
    else some kv)

/-- The `datetime_columns` list the `parse_dates` branch of
`_set_dataset_dtype` builds: the columns whose dtype contains `"date"`. -/
def dateColumns (column_dtypes : List (String × String)) : List String :=
  column_dtypes.filterMap (fun kv =>
    if strContains kv.2 "date" then some kv.1 else none)

/-- The mapping the `parse_dates = False` branch of `_set_dataset_dtype`
builds: date dtypes replaced by `"string"`, `int`-containing dtypes
capitalised, other dtypes kept. -/
def stringifiedDtypes (column_dtypes : List (String × String)) : List (String × String) :=
  column_dtypes.map (fun kv =>
    if strContains kv.2 "date" then (kv.1, "string")
    else if strContains kv.2 "int" then (kv.1, pyCapitalize kv.2)
    else kv)

/-- `OpenFEMA._set_dataset_dtype`.  With `parse_dates` true, the dtype
mapping is split into date columns (parsed by `pd.to_datetime` after the
`astype`) and the rest, `int`-containing dtypes being capitalised to their
nullable form; with `parse_dates` false, date dtypes are replaced by
`"string"` and the whole mapping is applied by `astype`. -/
def set_dataset_dtype (df : Catalog) (column_dtypes : List (String × String))
    (parse_dates : Bool) : Except PyError Catalog :=
  if parse_dates then
    match astype df (nonDateDtypes column_dtypes) with
    | .error e => .error e
    | .ok df' => apply_datetimes df' (dateColumns column_dtypes)
  else
    astype df (stringifiedDtypes column_dtypes)

/-! ## Association-list and list helper lemmas -/

theorem lookup_none_iff_keys {β : Type} (l : List (String × β)) (n : String) :
    l.lookup n = none ↔ n ∉ l.map Prod.fst := by
  induction l with
  | nil => simp
  | cons kv rest ih =>
    obtain ⟨k, v⟩ := kv
    by_cases h : n = k
    · subst h
      simp [List.lookup]
    · simp [List.lookup, beq_false_of_ne h, ih, h]

theorem lookup_some_mem_keys {β : Type} {l : List (String × β)} {n : String} {v : β}
    (h : l.lookup n = some v) : n ∈ l.map Prod.fst := by
  by_contra hn
  rw [← lookup_none_iff_keys] at hn
  rw [h] at hn
  cases hn

theorem mem_keys_exists_lookup {β : Type} {l : List (String × β)} {n : String}
    (h : n ∈ l.map Prod.fst) : ∃ v, l.lookup n = some v := by
  cases hl : l.lookup n with
  | none => exact absurd ((lookup_none_iff_keys l n).1 hl) (not_not.mpr h)
  | some v => exact ⟨v, rfl⟩

theorem mapExcept_cellAsString_str (names : List String) :
    mapExcept cellAsString (names.map Cell.str) = .ok names := by
  induction names with
  | nil => rfl
  | cons a as ih => simp [mapExcept, cellAsString, ih]

theorem mem_dedupAux (seen l : List String) (x : String) :
    x ∈ dedupAux seen l ↔ x ∈ l ∧ x ∉ seen := by
  induction l generalizing seen with
  | nil => simp [dedupAux]
  | cons a as ih =>
    simp only [dedupAux]
    by_cases h : a ∈ seen
    · rw [if_pos h, ih]
      simp only [List.mem_cons]
      constructor
      · rintro ⟨hx, hs⟩
        exact ⟨Or.inr hx, hs⟩
      · rintro ⟨hx | hx, hs⟩
        · exact absurd (hx ▸ h) hs
        · exact ⟨hx, hs⟩
    · rw [if_neg h]
      simp only [List.mem_cons, ih, List.mem_cons]
      constructor
      · rintro (rfl | ⟨hx, hs⟩)
        · exact ⟨Or.inl rfl, h⟩
        · exact ⟨Or.inr hx, fun hm => hs (Or.inr hm)⟩
      · rintro ⟨rfl | hx, hs⟩
        · exact Or.inl rfl
        · by_cases hxa : x = a
          · exact Or.inl hxa
          · exact Or.inr ⟨hx, fun hm => hm.elim hxa hs⟩

theorem nodup_dedupAux (seen l : List String) : (dedupAux seen l).Nodup := by
  induction l generalizing seen with
  | nil => exact List.nodup_nil
  | cons a as ih =>
    simp only [dedupAux]
    by_cases h : a ∈ seen
    · rw [if_pos h]
      exact ih seen
    · rw [if_neg h]
      refine List.nodup_cons.mpr ⟨?_, ih (a :: seen)⟩
      intro hmem
      exact ((mem_dedupAux _ _ _).1 hmem).2 (List.mem_cons_self a seen)

theorem mem_dedupFirst (l : List String) (x : String) : x ∈ dedupFirst l ↔ x ∈ l := by
  rw [dedupFirst, mem_dedupAux]
  simp

theorem nodup_dedupFirst (l : List String) : (dedupFirst l).Nodup :=
  nodup_dedupAux [] l

theorem sortStrings_perm (l : List String) : List.Perm (sortStrings l) l :=
  List.perm_insertionSort _ l

theorem mem_sortStrings (l : List String) (x : String) : x ∈ sortStrings l ↔ x ∈ l :=
  (sortStrings_perm l).mem_iff

theorem nodup_sortStrings {l : List String} (h : l.Nodup) : (sortStrings l).Nodup :=
  ((sortStrings_perm l).nodup_iff).mpr h

theorem sorted_sortStrings (l : List String) :
    (sortStrings l).Sorted (fun a b : String => a ≤ b) :=
  List.sorted_insertionSort _ l

/-! ## Lemmas about catalog validation and `list_datasets` -/

theorem validate_ok_of_name_col {df : Catalog} {col : List Cell}
    (h : df.lookup "name" = some col) :
    validate_metadata_dataset_list df = .ok () := by
  unfold validate_metadata_dataset_list
  rw [if_pos]
  rw [List.any_eq_true]
  exact ⟨"name", lookup_some_mem_keys h, by decide⟩

theorem list_datasets_eq (df : Catalog) (names : List String)
    (h : df.lookup "name" = some (names.map Cell.str)) :
    list_datasets df =
      (if ((dedupFirst names).filter (fun s => strContains s "DataSet")).length > 3 then
        .ok (sortStrings (dedupFirst names),
             some ((dedupFirst names).filter (fun s => strContains s "DataSet")))
      else
        .ok (sortStrings ((dedupFirst names).filter (fun s => !(strContains s "DataSet"))),
             none)) := by
  unfold list_datasets getCol
  rw [validate_ok_of_name_col h, h]
  simp only [bind, Except.bind, mapExcept_cellAsString_str]

theorem list_datasets_ok_pair {df : Catalog} {names : List String} {l : List String}
    {w : Option (List String)}
    (h : df.lookup "name" = some (names.map Cell.str))
    (hl : list_datasets df = .ok (l, w)) :
    ∃ base : List String, l = sortStrings base ∧ base.Nodup ∧ ∀ s ∈ base, s ∈ names := by
  rw [list_datasets_eq df names h] at hl
  by_cases hc :
      ((dedupFirst names).filter (fun s => strContains s "DataSet")).length > 3
  · rw [if_pos hc] at hl
    simp only [Except.ok.injEq, Prod.mk.injEq] at hl
    refine ⟨dedupFirst names, hl.1.symm, nodup_dedupFirst names, ?_⟩
    intro s hs
    exact (mem_dedupFirst names s).1 hs
  · rw [if_neg hc] at hl
    simp only [Except.ok.injEq, Prod.mk.injEq] at hl
    refine ⟨(dedupFirst names).filter (fun s => !(strContains s "DataSet")),
      hl.1.symm, List.Nodup.filter _ (nodup_dedupFirst names), ?_⟩
    intro s hs
    exact (mem_dedupFirst names s).1 (List.mem_of_mem_filter hs)

theorem list_datasets_ok_nodup {df : Catalog} {names : List String} {l : List String}
    {w : Option (List String)}
    (h : df.lookup "name" = some (names.map Cell.str))
    (hl : list_datasets df = .ok (l, w)) : l.Nodup := by
  obtain ⟨base, rfl, hnd, _⟩ := list_datasets_ok_pair h hl
  exact nodup_sortStrings hnd

theorem list_datasets_ok_mem_names {df : Catalog} {names : List String} {l : List String}
    {w : Option (List String)}
    (h : df.lookup "name" = some (names.map Cell.str))
    (hl : list_datasets df = .ok (l, w)) : ∀ s ∈ l, s ∈ names := by
  obtain ⟨base, rfl, _, hsub⟩ := list_datasets_ok_pair h hl
  intro s hs
  exact hsub s ((mem_sortStrings base s).1 hs)

theorem validate_ok_of_list_ok {df : Catalog} {r : List String × Option (List String)}
    (h : list_datasets df = .ok r) :
    validate_metadata_dataset_list df = .ok () := by
  cases hv : validate_metadata_dataset_list df with
  | error e =>
    unfold list_datasets at h
    rw [hv] at h
    simp [bind, Except.bind] at h
  | ok u =>
    cases u
    rfl

theorem check_ok_of_mem {df : Catalog} {names : List String} {l : List String}
    {w : Option (List String)} {dataset : String}
    (h : df.lookup "name" = some (names.map Cell.str))
    (hl : list_datasets df = .ok (l, w)) (hmem : dataset ∈ l) :
    check_if_dataset_exists df dataset = .ok () := by
  have hnd : l.Nodup := list_datasets_ok_nodup h hl
  unfold check_if_dataset_exists
  rw [validate_ok_of_list_ok hl]
  simp only [bind, Except.bind, hl, List.count_eq_one_of_mem hnd hmem]
  simp

theorem check_err_of_not_mem {df : Catalog} {l : List String}
    {w : Option (List String)} {dataset : String}
    (hl : list_datasets df = .ok (l, w)) (hmem : dataset ∉ l) :
    check_if_dataset_exists df dataset = .error (.valueError "dataset not found") := by
  unfold check_if_dataset_exists
  rw [validate_ok_of_list_ok hl]
  simp only [bind, Except.bind, hl, List.count_eq_zero.mpr hmem]
  simp

/-! ## Lemmas about schema resolution and `dataset_info` -/

theorem schema_matches_mem_eq_key {schemas : List (String × SchemaEntry)} {key x : String}
    (h : x ∈ schema_matches schemas key) : x = key := by
  have := (List.mem_filter.1 h).2
  exact (of_decide_eq_true this).symm

theorem schema_matches_mem_keys {schemas : List (String × SchemaEntry)} {key x : String}
    (h : x ∈ schema_matches schemas key) : x ∈ schemas.map Prod.fst :=
  (List.mem_filter.1 h).1

theorem get_dataset_dtype_ok_of_single {schemas : List (String × SchemaEntry)}
    {dataset : String} {version : Int} {k : String} {entry : SchemaEntry}
    (hm : schema_matches schemas (schema_key dataset version) = [k])
    (he : schemas.lookup (schema_key dataset version) = some entry) :
    get_dataset_dtype schemas dataset version =
      .ok (entry.properties.map (fun kv => (kv.1, kv.2.format))) := by
  simp only [get_dataset_dtype, hm, he]

theorem get_dataset_dtype_err_iff (schemas : List (String × SchemaEntry))
    (dataset : String) (version : Int) :
    (schema_matches schemas (schema_key dataset version)).length ≠ 1 ↔
      get_dataset_dtype schemas dataset version =
        .error (.notImplementedError "schema resolution") := by
  cases hm : schema_matches schemas (schema_key dataset version) with
  | nil =>
    simp only [get_dataset_dtype, hm]
    simp
  | cons x t =>
    cases t with
    | nil =>
      have hx : x = schema_key dataset version :=
        schema_matches_mem_eq_key (hm ▸ List.mem_singleton_self x)
      have hk : schema_key dataset version ∈ schemas.map Prod.fst :=
        hx ▸ schema_matches_mem_keys (hm ▸ List.mem_singleton_self x)
      obtain ⟨entry, he⟩ := mem_keys_exists_lookup hk
      rw [get_dataset_dtype_ok_of_single hm he]
      simp
    | cons y u =>
      simp only [get_dataset_dtype, hm]
      simp

theorem firstMatchIdx_isSome {names : List String} {dataset : String}
    (h : dataset ∈ names) :
    ∃ i, firstMatchIdx (names.map Cell.str) dataset = some i := by
  induction names with
  | nil => cases h
  | cons a as ih =>
    by_cases ha : a = dataset
    · subst ha
      exact ⟨0, by simp [firstMatchIdx]⟩
    · have hmem : dataset ∈ as := by
        cases h with
        | head => exact absurd rfl ha
        | tail _ hmem => exact hmem
      obtain ⟨i, hi⟩ := ih hmem
      refine ⟨i + 1, ?_⟩
      simp only [List.map_cons, firstMatchIdx]
      rw [if_neg (by simp [ha]), hi]
      rfl

theorem dataset_info_ok {cl : Client} {dataset : String} {names l : List String}
    {w : Option (List String)} {i : Nat} {v : Int} {entry : SchemaEntry}
    (h : cl.catalog.lookup "name" = some (names.map Cell.str))
    (hl : list_datasets cl.catalog = .ok (l, w))
    (hmem : dataset ∈ l)
    (hidx : firstMatchIdx (names.map Cell.str) dataset = some i)
    (hver : (extractRow cl.catalog i).lookup "version" = some (Cell.int v))
    (hm : schema_matches cl.schemas (schema_key dataset v) = [schema_key dataset v])
    (he : cl.schemas.lookup (schema_key dataset v) = some entry) :
    dataset_info cl dataset =
      .ok (extractRow cl.catalog i,
           entry.properties.map (fun kv => (kv.1, kv.2.format))) := by
  unfold dataset_info getCol
  rw [validate_ok_of_list_ok hl]
  simp only [bind, Except.bind, check_ok_of_mem h hl hmem, h, hidx, hver,
    get_dataset_dtype_ok_of_single hm he]

theorem dataset_info_err_of_not_mem {cl : Client} {dataset : String} {l : List String}
    {w : Option (List String)}
    (hl : list_datasets cl.catalog = .ok (l, w)) (hmem : dataset ∉ l) :
    dataset_info cl dataset = .error (.valueError "dataset not found") := by
  unfold dataset_info
  rw [validate_ok_of_list_ok hl]
  simp only [bind, Except.bind, check_err_of_not_mem hl hmem]

/-! ## Lemmas about type coercion -/

theorem castColumns_ok_forall2 {mapping : List (String × String)} :
    ∀ {df out : Catalog}, castColumns mapping df = .ok out →
      List.Forall₂ (fun a b : String × List Cell =>
        a.1 = b.1 ∧ (mapping.lookup a.1 = none → b = a)) df out := by
  intro df
  induction df with
  | nil =>
    intro out h
    simp only [castColumns, Except.ok.injEq] at h
    subst h
    exact List.Forall₂.nil
  | cons kv rest ih =>
    intro out h
    obtain ⟨n, col⟩ := kv
    simp only [castColumns] at h
    split at h
    · exact absurd h (by simp)
    · rename_i col' hx
      split at h
      · exact absurd h (by simp)
      · rename_i rest' hr
        simp only [Except.ok.injEq] at h
        subst h
        refine List.Forall₂.cons ⟨rfl, ?_⟩ (ih hr)
        intro hnone
        simp only [hnone, Except.ok.injEq] at hx
        rw [← hx]

theorem forall2_comp {α : Type} {r1 r2 r3 : α → α → Prop}
    (hc : ∀ a b c, r1 a b → r2 b c → r3 a c) :
    ∀ {x y z : List α}, List.Forall₂ r1 x y → List.Forall₂ r2 y z →
      List.Forall₂ r3 x z := by
  intro x y z h1
  induction h1 generalizing z with
  | nil =>
    intro h2
    cases h2
    exact List.Forall₂.nil
  | cons hab h1' ih =>
    intro h2
    cases h2 with
    | cons hbc h2' => exact List.Forall₂.cons (hc _ _ _ hab hbc) (ih h2')

theorem forall2_keys {r : (String × List Cell) → (String × List Cell) → Prop}
    (hr : ∀ a b, r a b → a.1 = b.1) :
    ∀ {x y : Catalog}, List.Forall₂ r x y → x.map Prod.fst = y.map Prod.fst := by
  intro x y h
  induction h with
  | nil => rfl
  | cons hab _ ih => simp [hr _ _ hab, ih]

theorem hasColumn_cons (n : String) (col : List Cell) (rest : Catalog) (c : String) :
    hasColumn ((n, col) :: rest) c = (c == n || hasColumn rest c) := by
  simp [hasColumn]

theorem to_datetime_col_ok_forall2 {c : String} :
    ∀ {df out : Catalog}, to_datetime_col df c = .ok out →
      List.Forall₂ (fun a b : String × List Cell =>
        a.1 = b.1 ∧ (a.1 ≠ c → b = a)) df out := by
  intro df
  induction df with
  | nil =>
    intro out h
    exact absurd h (by simp [to_datetime_col])
  | cons kv rest ih =>
    intro out h
    obtain ⟨n, col⟩ := kv
    simp only [to_datetime_col] at h
    split at h
    · rename_i hnc
      split at h
      · exact absurd h (by simp)
      · rename_i col' hx
        simp only [Except.ok.injEq] at h
        subst h
        refine List.Forall₂.cons ⟨rfl, fun hne => absurd hnc hne⟩ ?_
        exact List.forall₂_same.mpr (fun x _ => ⟨rfl, fun _ => rfl⟩)
    · rename_i hnc
      split at h
      · exact absurd h (by simp)
      · rename_i rest' hr
        simp only [Except.ok.injEq] at h
        subst h
        exact List.Forall₂.cons ⟨rfl, fun _ => rfl⟩ (ih hr)

theorem to_datetime_col_ok_hasColumn {c : String} :
    ∀ {df out : Catalog}, to_datetime_col df c = .ok out → hasColumn df c = true := by
  intro df
  induction df with
  | nil =>
    intro out h
    exact absurd h (by simp [to_datetime_col])
  | cons kv rest ih =>
    intro out h
    obtain ⟨n, col⟩ := kv
    simp only [to_datetime_col] at h
    split at h
    · rename_i hnc
      rw [hasColumn_cons]
      simp [hnc]
    · rename_i hnc
      split at h
      · exact absurd h (by simp)
      · rename_i rest' hr
        rw [hasColumn_cons, ih hr]
        simp

theorem apply_datetimes_ok_forall2 {cs : List String} :
    ∀ {df out : Catalog}, apply_datetimes df cs = .ok out →
      List.Forall₂ (fun a b : String × List Cell =>
        a.1 = b.1 ∧ (a.1 ∉ cs → b = a)) df out := by
  induction cs with
  | nil =>
    intro df out h
    simp only [apply_datetimes, Except.ok.injEq] at h
    subst h
    exact List.forall₂_same.mpr (fun x _ => ⟨rfl, fun _ => rfl⟩)
  | cons c cs ih =>
    intro df out h
    simp only [apply_datetimes] at h
    split at h
    · exact absurd h (by simp)
    · rename_i df' hd
      have F1 := to_datetime_col_ok_forall2 hd
      have F2 := ih h
      refine forall2_comp ?_ F1 F2
      rintro a b d ⟨e1, f1⟩ ⟨e2, f2⟩
      refine ⟨e1.trans e2, ?_⟩
      intro hnot
      have hba := f1 (fun hh => hnot (hh ▸ List.mem_cons_self c cs))
      have hb1 : b.1 = a.1 := e1.symm
      have hdb := f2 (by
        rw [hb1]
        exact fun hh => hnot (List.mem_cons_of_mem c hh))
      rw [hdb, hba]

theorem apply_datetimes_ok_cols {cs : List String} :
    ∀ {df out : Catalog}, apply_datetimes df cs = .ok out →
      ∀ c ∈ cs, hasColumn df c = true := by
  induction cs with
  | nil =>
    intro df out _ c hc
    cases hc
  | cons c0 cs ih =>
    intro df out h c hc
    simp only [apply_datetimes] at h
    split at h
    · exact absurd h (by simp)
    · rename_i df' hd
      cases hc with
      | head => exact to_datetime_col_ok_hasColumn hd
      | tail _ hmem =>
        have hkeys : df.map Prod.fst = df'.map Prod.fst :=
          forall2_keys (fun a b hab => hab.1) (to_datetime_col_ok_forall2 hd)
        have hcol := ih h c hmem
        unfold hasColumn at hcol ⊢
        rw [hkeys]
        exact hcol

theorem astype_ok_forall2 {df : Catalog} {mapping : List (String × String)} {out : Catalog}
    (h : astype df mapping = .ok out) :
    List.Forall₂ (fun a b : String × List Cell =>
      a.1 = b.1 ∧ (mapping.lookup a.1 = none → b = a)) df out := by
  unfold astype at h
  split at h
  · exact castColumns_ok_forall2 h
  · exact absurd h (by simp)

theorem astype_ok_allCols {df : Catalog} {mapping : List (String × String)} {out : Catalog}
    (h : astype df mapping = .ok out) :
    ∀ kv ∈ mapping, hasColumn df kv.1 = true := by
  unfold astype at h
  split at h
  · rename_i hall
    exact fun kv hkv => List.all_eq_true.1 hall kv hkv
  · exact absurd h (by simp)

theorem nonDateDtypes_entry_fst {kv kv' : String × String}
    (hf : (if strContains kv.2 "date" then none
           else if strContains kv.2 "int" then some (kv.1, pyCapitalize kv.2)
           else some kv) = some kv') : kv'.1 = kv.1 := by
  by_cases h1 : strContains kv.2 "date"
  · rw [if_pos h1] at hf
    cases hf
  · rw [if_neg h1] at hf
    by_cases h2 : strContains kv.2 "int"
    · rw [if_pos h2] at hf
      cases hf
      rfl
    · rw [if_neg h2] at hf
      cases hf
      rfl

theorem keys_stringifiedDtypes (m : List (String × String)) :
    (stringifiedDtypes m).map Prod.fst = m.map Prod.fst := by
  unfold stringifiedDtypes
  rw [List.map_map]
  apply List.map_congr_left
  intro kv _
  by_cases h1 : strContains kv.2 "date"
  · simp [h1]
  · by_cases h2 : strContains kv.2 "int"
    · simp [h1, h2]
    · simp [h1, h2]

theorem lookup_stringifiedDtypes_none {m : List (String × String)} {n : String}
    (h : m.lookup n = none) : (stringifiedDtypes m).lookup n = none := by
  rw [lookup_none_iff_keys] at h ⊢
  rw [keys_stringifiedDtypes]
  exact h

theorem mem_keys_nonDateDtypes {m : List (String × String)} {n : String}
    (h : n ∈ (nonDateDtypes m).map Prod.fst) : n ∈ m.map Prod.fst := by
  rcases List.mem_map.1 h with ⟨kv', hkv', rfl⟩
  rcases List.mem_filterMap.1 hkv' with ⟨kv, hkv, hf⟩
  rw [nonDateDtypes_entry_fst hf]
  exact List.mem_map.2 ⟨kv, hkv, rfl⟩

theorem lookup_nonDateDtypes_none {m : List (String × String)} {n : String}
    (h : m.lookup n = none) : (nonDateDtypes m).lookup n = none := by
  rw [lookup_none_iff_keys] at h ⊢
  exact fun hmem => h (mem_keys_nonDateDtypes hmem)

theorem not_mem_dateColumns {m : List (String × String)} {n : String}
    (h : m.lookup n = none) : n ∉ dateColumns m := by
  rw [lookup_none_iff_keys] at h
  intro hmem
  rcases List.mem_filterMap.1 hmem with ⟨kv, hkv, hf⟩
  by_cases h1 : strContains kv.2 "date"
  · rw [if_pos h1] at hf
    cases hf
    exact h (List.mem_map.2 ⟨kv, hkv, rfl⟩)
  · rw [if_neg h1] at hf
    cases hf

theorem mem_keys_nonDateDtypes_of_mem {m : List (String × String)} {kv : String × String}
    (hkv : kv ∈ m) (hdate : strContains kv.2 "date" = false) :
    kv.1 ∈ (nonDateDtypes m).map Prod.fst := by
  by_cases h2 : strContains kv.2 "int"
  · refine List.mem_map.2 ⟨(kv.1, pyCapitalize kv.2), List.mem_filterMap.2 ⟨kv, hkv, ?_⟩, rfl⟩
    rw [if_neg (by simp [hdate]), if_pos h2]
  · refine List.mem_map.2 ⟨kv, List.mem_filterMap.2 ⟨kv, hkv, ?_⟩, rfl⟩
    rw [if_neg (by simp [hdate]), if_neg h2]

theorem mem_dateColumns_of_mem {m : List (String × String)} {kv : String × String}
    (hkv : kv ∈ m) (hdate : strContains kv.2 "date" = true) :
    kv.1 ∈ dateColumns m :=
  List.mem_filterMap.2 ⟨kv, hkv, by rw [if_pos hdate]⟩

theorem mem_keys_stringifiedDtypes_of_mem {m : List (String × String)}
    {kv : String × String} (hkv : kv ∈ m) :
    kv.1 ∈ (stringifiedDtypes m).map Prod.fst := by
  rw [keys_stringifiedDtypes]
  exact List.mem_map.2 ⟨kv, hkv, rfl⟩

theorem set_dataset_dtype_err_of_missing {df : Catalog} {m : List (String × String)}
    {pd : Bool} {kv : String × String}
    (hkv : kv ∈ m) (hmiss : hasColumn df kv.1 = false) :
    (set_dataset_dtype df m pd).isOk = false := by
  cases hres : set_dataset_dtype df m pd with
  | error e => rfl
  | ok out =>
    exfalso
    unfold set_dataset_dtype at hres
    split at hres
    · split at hres
      · exact absurd hres (by simp)
      · rename_i df' hast
        by_cases hdate : strContains kv.2 "date"
        · have hc : kv.1 ∈ dateColumns m := mem_dateColumns_of_mem hkv hdate
          have hkeys : df.map Prod.fst = df'.map Prod.fst :=
            forall2_keys (fun a b hab => hab.1) (astype_ok_forall2 hast)
          have hcol := apply_datetimes_ok_cols hres kv.1 hc
          unfold hasColumn at hcol hmiss
          rw [← hkeys] at hcol
          rw [hmiss] at hcol
          cases hcol
        · have hc : kv.1 ∈ (nonDateDtypes m).map Prod.fst :=
            mem_keys_nonDateDtypes_of_mem hkv (by simpa using hdate)
          rcases List.mem_map.1 hc with ⟨kv₂, hkv₂, hfst⟩
          have := astype_ok_allCols hast kv₂ hkv₂
          rw [hfst, hmiss] at this
          cases this
    · have hc : kv.1 ∈ (stringifiedDtypes m).map Prod.fst :=
        mem_keys_stringifiedDtypes_of_mem hkv
      rcases List.mem_map.1 hc with ⟨kv₂, hkv₂, hfst⟩
      have := astype_ok_allCols hres kv₂ hkv₂
      rw [hfst, hmiss] at this
      cases this

theorem set_dataset_dtype_ok_forall2 {df : Catalog} {m : List (String × String)}
    {pd : Bool} {out : Catalog}
    (h : set_dataset_dtype df m pd = .ok out) :
    List.Forall₂ (fun a b : String × List Cell =>
      a.1 = b.1 ∧ (m.lookup a.1 = none → b = a)) df out := by
  unfold set_dataset_dtype at h
  split at h
  · split at h
    · exact absurd h (by simp)
    · rename_i df' hast
      have F1 := astype_ok_forall2 hast
      have F2 := apply_datetimes_ok_forall2 h
      refine forall2_comp ?_ F1 F2
      rintro a b d ⟨e1, f1⟩ ⟨e2, f2⟩
      refine ⟨e1.trans e2, ?_⟩
      intro hnone
      have hba := f1 (lookup_nonDateDtypes_none hnone)
      have hb1 : b.1 = a.1 := e1.symm
      have hdb := f2 (by
        rw [hb1]
        exact not_mem_dateColumns hnone)
      rw [hdb, hba]
  · have F := astype_ok_forall2 h
    refine List.Forall₂.imp ?_ F
    rintro a b ⟨e1, f1⟩
    exact ⟨e1, fun hnone => f1 (lookup_stringifiedDtypes_none hnone)⟩

theorem castCell_string_str (s : String) :
    castCell "string" (Cell.str s) = .ok (Cell.str s) := rfl

theorem castColumn_string_strs (texts : List String) :
    castColumn "string" (texts.map Cell.str) = .ok (texts.map Cell.str) := by
  induction texts with
  | nil => rfl
  | cons t ts ih =>
    unfold castColumn at ih ⊢
    simp only [List.map_cons, mapExcept, castCell_string_str, ih]

theorem castCell_nullable_na {dtype : String} (hd : dtype ∈ nullableIntDtypes) :
    castCell dtype Cell.na = .ok Cell.na := by
  simp only [nullableIntDtypes, List.mem_cons, List.not_mem_nil, or_false] at hd
  rcases hd with rfl | rfl | rfl | rfl <;> rfl

theorem castCell_nullable_int {dtype : String} (hd : dtype ∈ nullableIntDtypes) (n : Int) :
    castCell dtype (Cell.int n) = .ok (Cell.int n) := by
  simp only [nullableIntDtypes, List.mem_cons, List.not_mem_nil, or_false] at hd
  rcases hd with rfl | rfl | rfl | rfl <;> rfl

theorem castColumn_nullable {dtype : String} (hd : dtype ∈ nullableIntDtypes)
    {cells : List Cell} (hc : ∀ v ∈ cells, v = Cell.na ∨ ∃ n : Int, v = Cell.int n) :
    castColumn dtype cells = .ok cells := by
  induction cells with
  | nil => rfl
  | cons c cs ih =>
    have hcell : castCell dtype c = .ok c := by
      rcases hc c (List.mem_cons_self c cs) with rfl | ⟨n, rfl⟩
      · exact castCell_nullable_na hd
      · exact castCell_nullable_int hd n
    have ihs := ih (fun v hv => hc v (List.mem_cons_of_mem c hv))
    unfold castColumn at ihs ⊢
    simp only [mapExcept, hcell, ihs]

theorem set_dataset_dtype_single_int {c dtype : String} {cells : List Cell}
    (hdate : strContains dtype "date" = false)
    (hint : strContains dtype "int" = true)
    (hcast : castColumn (pyCapitalize dtype) cells = .ok cells)
    (pd : Bool) :
    set_dataset_dtype [(c, cells)] [(c, dtype)] pd = .ok [(c, cells)] := by
  have hn : nonDateDtypes [(c, dtype)] = [(c, pyCapitalize dtype)] := by
    simp [nonDateDtypes, hdate, hint]
  have hdt : dateColumns [(c, dtype)] = [] := by
    simp [dateColumns, hdate]
  have hs : stringifiedDtypes [(c, dtype)] = [(c, pyCapitalize dtype)] := by
    simp [stringifiedDtypes, hdate, hint]
  have hast : astype [(c, cells)] [(c, pyCapitalize dtype)] = .ok [(c, cells)] := by
    unfold astype
    rw [if_pos (by simp [hasColumn])]
    simp [castColumns, List.lookup, hcast]
  unfold set_dataset_dtype
  cases pd with
  | true => simp [hn, hdt, hast, apply_datetimes]
  | false => simp [hs, hast]

theorem set_dataset_dtype_single_date_noparse {c dtype : String} {texts : List String}
    (hdate : strContains dtype "date" = true) :
    set_dataset_dtype [(c, texts.map Cell.str)] [(c, dtype)] false =
      .ok [(c, texts.map Cell.str)] := by
  have hs : stringifiedDtypes [(c, dtype)] = [(c, "string")] := by
    simp [stringifiedDtypes, hdate]
  have hast : astype [(c, texts.map Cell.str)] [(c, "string")] =
      .ok [(c, texts.map Cell.str)] := by
    unfold astype
    rw [if_pos (by simp [hasColumn])]
    simp [castColumns, List.lookup, castColumn_string_strs]
  unfold set_dataset_dtype
  simp [hs, hast]

/-! ## The claims -/

/-- Claim C10: the catalog-shape validation accepts any catalog one of whose
column names merely contains the substring "name", while `list_datasets`
indexes the column named exactly "name"; hence a catalog whose only matching
column is "datasetname" passes validation but `list_datasets` fails with an
uncontrolled missing-key error (`KeyError`), not the fatal remote-shape
`NotImplementedError`. -/
theorem C10_validation_gap :
    (∀ df : Catalog,
      (df.map Prod.fst).any (fun c => strContains c "name") = true →
      validate_metadata_dataset_list df = .ok ()) ∧
    validate_metadata_dataset_list [("datasetname", [Cell.str "A"])] = .ok () ∧
    list_datasets [("datasetname", [Cell.str "A"])] = .error .keyError := by
  refine ⟨?_, rfl, rfl⟩
  intro df h
  unfold validate_metadata_dataset_list
  rw [if_pos h]

theorem C10_validation_gap_witness :
    validate_metadata_dataset_list [("fullname", [Cell.str "B"])] = .ok () :=
  C10_validation_gap.1 [("fullname", [Cell.str "B"])] (by decide)

/-- Claim C5: with no explicit format, `read_dataset` selects the first
available format in the fixed order geojson, parquet, csv, jsona (nothing
when none of the four is available); an explicit format is used verbatim
without validation against the available formats; and a resolved format with
no reader among the four (including no selection at all) fails at the read
step with the unsupported-format `ValueError`, selection itself never
raising. -/
theorem C5_format_selection :
    (∀ file_formats : List String,
      select_file_format none file_formats =
        formatPriority.find? (fun f => file_formats.contains f)) ∧
    (∀ (f : String) (file_formats : List String),
      select_file_format (some f) file_formats = some f) ∧
    (∀ r : Option String, r ∉ formatPriority.map some →
      read_by_format r = .error (.valueError "unsupported file format")) := by
  refine ⟨?_, fun f ff => rfl, ?_⟩
  · intro ff
    by_cases h1 : "geojson" ∈ ff <;>
      by_cases h2 : "parquet" ∈ ff <;>
        by_cases h3 : "csv" ∈ ff <;>
          by_cases h4 : "jsona" ∈ ff <;>
            simp [select_file_format, formatPriority, List.find?, h1, h2, h3, h4]
  · intro r hr
    have h1 : ¬(r = some "geojson") := fun hEq => hr (by rw [hEq]; simp [formatPriority])
    have h2 : ¬(r = some "parquet") := fun hEq => hr (by rw [hEq]; simp [formatPriority])
    have h3 : ¬(r = some "csv") := fun hEq => hr (by rw [hEq]; simp [formatPriority])
    have h4 : ¬(r = some "jsona") := fun hEq => hr (by rw [hEq]; simp [formatPriority])
    unfold read_by_format
    rw [if_neg h1, if_neg h2, if_neg h3, if_neg h4]

theorem C5_format_selection_witness :
    select_file_format none ["csv", "parquet"] = some "parquet" ∧
    select_file_format (some "csv") ["csv", "parquet"] = some "csv" ∧
    read_by_format (select_file_format none ["xml"]) =
      .error (.valueError "unsupported file format") :=
  ⟨by rw [C5_format_selection.1 ["csv", "parquet"]]; rfl,
   C5_format_selection.2.1 "csv" ["csv", "parquet"],
   C5_format_selection.2.2 (select_file_format none ["xml"]) (by decide)⟩

/-- Claim C4: `_get_dataset_dtype` raises the fatal `NotImplementedError` iff
the number of `components.schemas` keys exactly equal to `v{version}-{dataset}`
is not one; with exactly one matching key it returns the mapping of each
property name of that schema entry to its declared `format` string, in
declared order, never silently picking among several matches. -/
theorem C4_schema_resolution (schemas : List (String × SchemaEntry))
    (dataset : String) (version : Int) :
    ((schema_matches schemas (schema_key dataset version)).length ≠ 1 ↔
      get_dataset_dtype schemas dataset version =
        .error (.notImplementedError "schema resolution")) ∧
    ((schema_matches schemas (schema_key dataset version)).length = 1 →
      ∃ entry : SchemaEntry,
        schemas.lookup (schema_key dataset version) = some entry ∧
        get_dataset_dtype schemas dataset version =
          .ok (entry.properties.map (fun kv => (kv.1, kv.2.format)))) := by
  refine ⟨get_dataset_dtype_err_iff schemas dataset version, ?_⟩
  intro hlen
  cases hm : schema_matches schemas (schema_key dataset version) with
  | nil =>
    rw [hm] at hlen
    cases hlen
  | cons x t =>
    cases t with
    | nil =>
      have hx : x = schema_key dataset version :=
        schema_matches_mem_eq_key (hm ▸ List.mem_singleton_self x)
      have hk : schema_key dataset version ∈ schemas.map Prod.fst :=
        hx ▸ schema_matches_mem_keys (hm ▸ List.mem_singleton_self x)
      obtain ⟨entry, he⟩ := mem_keys_exists_lookup hk
      exact ⟨entry, he, get_dataset_dtype_ok_of_single hm he⟩
    | cons y u =>
      rw [hm] at hlen
      simp at hlen

theorem C4_schema_resolution_witness :
    get_dataset_dtype
      [("v2-Foo", { properties := [("a", { format := "string" })] }),
       ("v2-Foo", { properties := [] })] "Foo" 2 =
      .error (.notImplementedError "schema resolution") :=
  (C4_schema_resolution
      [("v2-Foo", { properties := [("a", { format := "string" })] }),
       ("v2-Foo", { properties := [] })] "Foo" 2).1.mp (by decide)

/-- Claim C1 fails on the code: a metadata document whose `servers` list has
two entries with description "Production" constructs successfully, silently
using the first one, instead of failing with a NotImplementedError-style
remote-shape error. -/
theorem C1_counterexample :
    init_client
      { servers := [{ url := "https://one", description := "Production" },
                    { url := "https://two", description := "Production" }],
        pathsKeys := ["/DataSets"], schemas := [] } [] =
      .ok { url := "https://one", schemas := [], catalog := [],
            catalogKey := "/DataSets" } := rfl

/-- Claim C1 amended: with zero "Production" servers, construction fails with
the low-level `IndexError` of `[...][0]` (not a NotImplementedError); with one
or more "Production" servers, server resolution silently yields the url of
the first one and raises nothing, so any constructed client uses it. -/
theorem C1_amended (meta : Metadata) (catalog : Catalog) :
    (production_urls meta.servers = [] →
      init_client meta catalog = .error .indexError) ∧
    (∀ (u : String) (rest : List String), production_urls meta.servers = u :: rest →
      extract_production_url meta.servers = .ok u ∧
      ∀ cl : Client, init_client meta catalog = .ok cl → cl.url = u) := by
  constructor
  · intro h
    unfold init_client extract_production_url
    rw [h]
    rfl
  · intro u rest h
    have he : extract_production_url meta.servers = .ok u := by
      unfold extract_production_url
      rw [h]
    refine ⟨he, ?_⟩
    intro cl hcl
    unfold init_client at hcl
    rw [he] at hcl
    simp only [bind, Except.bind] at hcl
    cases hk : find_metadata_dataset_key meta.pathsKeys with
    | error e =>
      simp only [hk] at hcl
      exact absurd hcl (by simp)
    | ok k =>
      simp only [hk, Except.ok.injEq] at hcl
      rw [← hcl]

theorem C1_amended_witness :
    init_client
      { servers := [{ url := "https://x", description := "Development" }],
        pathsKeys := ["/DataSets"], schemas := [] } [] = .error .indexError ∧
    extract_production_url
      [{ url := "https://a", description := "Production" },
       { url := "https://b", description := "Production" }] = .ok "https://a" :=
  ⟨(C1_amended
      { servers := [{ url := "https://x", description := "Development" }],
        pathsKeys := ["/DataSets"], schemas := [] } []).1 (by decide),
   ((C1_amended
      { servers := [{ url := "https://a", description := "Production" },
                    { url := "https://b", description := "Production" }],
        pathsKeys := [], schemas := [] } []).2 "https://a" ["https://b"]
      (by decide)).1⟩

/-- Claim C3 fails on the code: the exclusion threshold is applied to the
count of distinct names (the name series is de-duplicated first), not to the
count of rows.  A catalog with four rows (more than 3) whose name contains
"DataSet" — all carrying the same name — still has that name excluded from
`list_datasets()`, and no warning fires, while the claim requires no
exclusion and a warning. -/
theorem C3_counterexample :
    3 < (["A", "XDataSet", "XDataSet", "XDataSet", "XDataSet"].countP
          (fun s => strContains s "DataSet")) ∧
    list_datasets [("name",
      [Cell.str "A", Cell.str "XDataSet", Cell.str "XDataSet",
       Cell.str "XDataSet", Cell.str "XDataSet"])] = .ok (["A"], none) :=
  ⟨by decide, rfl⟩

/-- Claim C3 amended: the threshold counts distinct names after
de-duplication, not rows.  If at most 3 distinct names contain the
case-sensitive substring "DataSet", exactly those names are excluded from the
result and no warning fires; if more than 3 distinct names match, no name is
excluded and the warning reports exactly the matching distinct names. -/
theorem C3_amended {df : Catalog} {names l : List String} {w : Option (List String)}
    (h : df.lookup "name" = some (names.map Cell.str))
    (hl : list_datasets df = .ok (l, w)) :
    (((dedupFirst names).filter (fun s => strContains s "DataSet")).length ≤ 3 →
      (∀ s, s ∈ l ↔ s ∈ names ∧ strContains s "DataSet" = false) ∧ w = none) ∧
    (3 < ((dedupFirst names).filter (fun s => strContains s "DataSet")).length →
      (∀ s, s ∈ l ↔ s ∈ names) ∧
      w = some ((dedupFirst names).filter (fun s => strContains s "DataSet"))) := by
  rw [list_datasets_eq df names h] at hl
  by_cases hc :
      ((dedupFirst names).filter (fun s => strContains s "DataSet")).length > 3
  · rw [if_pos hc] at hl
    simp only [Except.ok.injEq, Prod.mk.injEq] at hl
    obtain ⟨hl1, hl2⟩ := hl
    constructor
    · intro hle
      exact absurd hc (by omega)
    · intro _
      refine ⟨?_, hl2.symm⟩
      intro s
      rw [← hl1, mem_sortStrings, mem_dedupFirst]
  · rw [if_neg hc] at hl
    simp only [Except.ok.injEq, Prod.mk.injEq] at hl
    obtain ⟨hl1, hl2⟩ := hl
    constructor
    · intro _
      refine ⟨?_, hl2.symm⟩
      intro s
      rw [← hl1, mem_sortStrings, List.mem_filter, mem_dedupFirst]
      simp
    · intro hgt
      exact absurd hgt hc

theorem C3_amended_witness :
    (∀ s, s ∈ ["A"] ↔ s ∈ ["A", "XDataSet"] ∧ strContains s "DataSet" = false) ∧
      (none : Option (List String)) = none :=
  (@C3_amended [("name", [Cell.str "A", Cell.str "XDataSet"])] ["A", "XDataSet"]
      ["A"] none rfl rfl).1 (by decide)

/-- Claim C9: for every catalog whose name column holds strings, the list
returned by `list_datasets` contains no duplicate names and is sorted
lexicographically in ascending order. -/
theorem C9_sorted_nodup {df : Catalog} {names l : List String} {w : Option (List String)}
    (h : df.lookup "name" = some (names.map Cell.str))
    (hl : list_datasets df = .ok (l, w)) :
    l.Nodup ∧ l.Sorted (fun a b : String => a ≤ b) := by
  refine ⟨list_datasets_ok_nodup h hl, ?_⟩
  obtain ⟨base, rfl, _, _⟩ := list_datasets_ok_pair h hl
  exact sorted_sortStrings base

theorem C9_sorted_nodup_witness :
    (["Foo"] : List String).Nodup ∧
      (["Foo"] : List String).Sorted (fun a b : String => a ≤ b) :=
  @C9_sorted_nodup [("name", [Cell.str "Foo", Cell.str "Foo"])] ["Foo", "Foo"]
    ["Foo"] none rfl rfl

/-- Claim C7: a column whose declared type contains "int" (and is recognised,
once capitalised, as one of the engine's nullable integer dtypes, e.g.
"int32" ↦ "Int32") is cast to that nullable integer representation: applying
the coercion to a column of integers and missing values succeeds and returns
the column unchanged — the missing-value marker is preserved, not turned
into 0 and not forced into a float-only representation.  This holds for both
values of `parse_dates`. -/
theorem C7_nullable_int {c dtype : String} {cells : List Cell} (parse_dates : Bool)
    (hint : strContains dtype "int" = true)
    (hdate : strContains dtype "date" = false)
    (hcap : pyCapitalize dtype ∈ nullableIntDtypes)
    (hcells : ∀ v ∈ cells, v = Cell.na ∨ ∃ n : Int, v = Cell.int n) :
    set_dataset_dtype [(c, cells)] [(c, dtype)] parse_dates = .ok [(c, cells)] :=
  set_dataset_dtype_single_int hdate hint
    (castColumn_nullable hcap hcells) parse_dates

theorem C7_nullable_int_witness :
    set_dataset_dtype [("x", [Cell.int 5, Cell.na])] [("x", "int32")] true =
      .ok [("x", [Cell.int 5, Cell.na])] :=
  C7_nullable_int true (by decide) (by decide) (by decide) (by
    intro v hv
    cases hv with
    | head => exact Or.inr ⟨5, rfl⟩
    | tail _ hv2 =>
      cases hv2 with
      | head => exact Or.inl rfl
      | tail _ hv3 => cases hv3)

/-- Claim C8: with `parse_dates = false`, a column whose declared type
contains "date" is returned as a string column holding the original literal
text of each value, with no date parsing performed — even for literals the
strict date parser would reject. -/
theorem C8_dates_as_strings {c dtype : String} {texts : List String}
    (hdate : strContains dtype "date" = true) :
    set_dataset_dtype [(c, texts.map Cell.str)] [(c, dtype)] false =
      .ok [(c, texts.map Cell.str)] :=
  set_dataset_dtype_single_date_noparse hdate

theorem C8_dates_as_strings_witness :
    set_dataset_dtype [("d", [Cell.str "99/99/9999??"])] [("d", "date")] false =
      .ok [("d", [Cell.str "99/99/9999??"])] ∧
    dateParseOk "99/99/9999??" = false :=
  ⟨@C8_dates_as_strings "d" "date" ["99/99/9999??"] (by decide), by decide⟩

/-- Claim C2 fails on the code: a mapping entry whose column is absent from
the table is not skipped — `_set_dataset_dtype` fails, because pandas'
dict-keyed `astype` raises `KeyError` for a key that is not a column of the
frame. -/
theorem C2_counterexample :
    set_dataset_dtype [("a", [Cell.int 1])] [("b", "string")] true =
      .error .keyError := rfl

/-- Claim C2 amended: type coercion casts the mapped columns and passes every
table column not named in the mapping through unchanged (same name, same
cells), but a mapping entry whose column is absent from the table makes the
operation fail with the engine's missing-column error instead of being
skipped; `read_dataset` avoids the projection case by restricting the
mapping to the requested columns before coercing. -/
theorem C2_coercion_domain (df : Catalog) (m : List (String × String)) (pd : Bool) :
    (∀ kv ∈ m, hasColumn df kv.1 = false → (set_dataset_dtype df m pd).isOk = false) ∧
    (∀ out, set_dataset_dtype df m pd = .ok out →
      List.Forall₂ (fun a b : String × List Cell =>
        a.1 = b.1 ∧ (m.lookup a.1 = none → b = a)) df out) ∧
    (∀ cs : List String, cs ≠ [] →
      ∀ kv ∈ restrict_column_dtypes m (some cs), kv.1 ∈ cs) := by
  refine ⟨fun kv hkv hmiss => set_dataset_dtype_err_of_missing hkv hmiss,
    fun out h => set_dataset_dtype_ok_forall2 h, ?_⟩
  intro cs hcs kv hkv
  simp only [restrict_column_dtypes] at hkv
  rw [if_neg (by simpa using hcs)] at hkv
  exact List.elem_iff.1 (List.mem_filter.1 hkv).2

theorem C2_coercion_domain_witness :
    (set_dataset_dtype [("a", [Cell.int 1])] [("b", "string")] true).isOk = false ∧
    List.Forall₂ (fun a b : String × List Cell =>
        a.1 = b.1 ∧
          (([("a", "string")] : List (String × String)).lookup a.1 = none → b = a))
      [("a", [Cell.int 1]), ("c", [Cell.str "x"])]
      [("a", [Cell.str "1"]), ("c", [Cell.str "x"])] :=
  ⟨(C2_coercion_domain [("a", [Cell.int 1])] [("b", "string")] true).1
      ("b", "string") (by decide) (by decide),
   (C2_coercion_domain [("a", [Cell.int 1]), ("c", [Cell.str "x"])]
      [("a", "string")] true).2.1
      [("a", [Cell.str "1"]), ("c", [Cell.str "x"])] rfl⟩

/-- Claim C6 fails on the code: a name listed by `list_datasets` does not
guarantee that `dataset_info` succeeds — with a metadata document carrying no
schema entry for the dataset's version, `dataset_info` raises the
schema-drift `NotImplementedError` even though the name is listed. -/
theorem C6_counterexample :
    list_datasets [("name", [Cell.str "Foo"]), ("version", [Cell.int 1])] =
      .ok (["Foo"], none) ∧
    dataset_info
      { url := "u", schemas := [],
        catalog := [("name", [Cell.str "Foo"]), ("version", [Cell.int 1])],
        catalogKey := "k" } "Foo" =
      .error (.notImplementedError "schema resolution") :=
  ⟨rfl, rfl⟩

/-- Claim C6 amended: for a name in the list returned by `list_datasets`,
`dataset_info` succeeds and its `columns` mapping is non-empty provided the
metadata document has exactly one schema key `v{version}-{name}` for the
dataset's first catalog row and that schema entry declares at least one
property; unconditionally, for a name not in the list, `dataset_info` fails
with the dataset-not-found `ValueError`. -/
theorem C6_dataset_info :
    (∀ (cl : Client) (dataset : String) (names l : List String)
       (w : Option (List String)) (i : Nat) (v : Int) (entry : SchemaEntry),
      cl.catalog.lookup "name" = some (names.map Cell.str) →
      list_datasets cl.catalog = .ok (l, w) →
      dataset ∈ l →
      firstMatchIdx (names.map Cell.str) dataset = some i →
      (extractRow cl.catalog i).lookup "version" = some (Cell.int v) →
      schema_matches cl.schemas (schema_key dataset v) = [schema_key dataset v] →
      cl.schemas.lookup (schema_key dataset v) = some entry →
      entry.properties ≠ [] →
      dataset_info cl dataset =
        .ok (extractRow cl.catalog i,
             entry.properties.map (fun kv => (kv.1, kv.2.format))) ∧
      entry.properties.map (fun kv => (kv.1, kv.2.format)) ≠ []) ∧
    (∀ (cl : Client) (dataset : String) (l : List String) (w : Option (List String)),
      list_datasets cl.catalog = .ok (l, w) →
      dataset ∉ l →
      dataset_info cl dataset = .error (.valueError "dataset not found")) := by
  constructor
  · intro cl dataset names l w i v entry h hl hmem hidx hver hm he hne
    refine ⟨dataset_info_ok h hl hmem hidx hver hm he, ?_⟩
    intro hmap
    exact hne (List.map_eq_nil_iff.1 hmap)
  · intro cl dataset l w hl hmem
    exact dataset_info_err_of_not_mem hl hmem

theorem C6_dataset_info_witness :
    dataset_info
      { url := "u",
        schemas := [("v1-Foo", { properties := [("c1", { format := "string" })] })],
        catalog := [("name", [Cell.str "Foo"]), ("version", [Cell.int 1])],
        catalogKey := "k" } "Foo" =
      .ok ([("name", Cell.str "Foo"), ("version", Cell.int 1)], [("c1", "string")]) ∧
    dataset_info
      { url := "u",
        schemas := [("v1-Foo", { properties := [("c1", { format := "string" })] })],
        catalog := [("name", [Cell.str "Foo"]), ("version", [Cell.int 1])],
        catalogKey := "k" } "Bar" =
      .error (.valueError "dataset not found") :=
  ⟨(C6_dataset_info.1
      { url := "u",
        schemas := [("v1-Foo", { properties := [("c1", { format := "string" })] })],
        catalog := [("name", [Cell.str "Foo"]), ("version", [Cell.int 1])],
        catalogKey := "k" } "Foo" ["Foo"] ["Foo"] none 0 1
      { properties := [("c1", { format := "string" })] }
      rfl rfl (List.mem_singleton_self "Foo") rfl rfl rfl rfl (by simp)).1,
   C6_dataset_info.2
      { url := "u",
        schemas := [("v1-Foo", { properties := [("c1", { format := "string" })] })],
        catalog := [("name", [Cell.str "Foo"]), ("version", [Cell.int 1])],
        catalogKey := "k" } "Bar" ["Foo"] none rfl (by decide)⟩
